import Mathlib

/-!
# Verification of `EPCGenericRTDyldMemoryManager`

A shallow embedding of
`llvm/lib/ExecutionEngine/Orc/EPCGenericRTDyldMemoryManager.cpp` — the
remote memory manager of the ORC JIT runtime — together with proofs about
its layout, reservation, finalization and error-handling behaviour.

Addresses, sizes and alignments are modelled as `Nat`.  The arithmetic in
the source is `uint64_t`; the layout quantities handled here (page-rounded
segment sizes, per-section offsets) stay far below `2^64`, so overflow
plays no role in the properties under study and the embedding uses plain
natural numbers.  Remote interactions (`EPC.callSPSWrapper`) are modelled
by explicit outcome parameters: the embedding records which calls would be
issued and with which payloads, and the executor's responses are supplied
as oracles.
-/

namespace EPCMM

/-- `llvm::alignTo(Value, Align)`: round `v` up to the next multiple of
`a`.  The source computes `(Value + Align - 1) / Align * Align`. -/
def alignTo (v a : Nat) : Nat := (v + a - 1) / a * a

/-- `llvm::isPowerOf2_32`: `Value && !(Value & (Value - 1))`. -/
def isPowerOf2_32 (n : Nat) : Bool := n != 0 && (n &&& (n - 1)) == 0

/-- `ExecutorAddrRange`: a `[Start, End)` range in the executor's address
space.  The constructor taking a size sets `End = Start + Size`. -/
structure ExecutorAddrRange where
  Start : Nat
  End : Nat
deriving DecidableEq, Repr

/-- `ExecutorAddrRange::contains`: `Start <= Addr && Addr < End`. -/
def ExecutorAddrRange.containsAddr (r : ExecutorAddrRange) (a : Nat) : Bool :=
  decide (r.Start ≤ a) && decide (a < r.End)

/-- One section's staging buffer (`EPCGenericRTDyldMemoryManager::Alloc`).
`Contents` is the base address of the owned local buffer (the value of
`Contents.get()`); `RemoteAddr` is `0` (null) until assigned by
`mapAllocsToRemoteAddrs`. -/
structure Alloc where
  Contents : Nat
  Size : Nat
  Align : Nat
  RemoteAddr : Nat := 0
deriving DecidableEq, Repr

/-- A pending unwind-frame descriptor (`EHFrame`): load address + size. -/
structure EHFrame where
  Addr : Nat
  Size : Nat
deriving DecidableEq, Repr

/-- `EPCGenericRTDyldMemoryManager::AllocGroup`: the staged sections of one
loaded object, the three reserved remote ranges, and pending eh-frames. -/
structure AllocGroup where
  CodeAllocs : List Alloc := []
  RODataAllocs : List Alloc := []
  RWDataAllocs : List Alloc := []
  RemoteCode : ExecutorAddrRange := ⟨0, 0⟩
  RemoteROData : ExecutorAddrRange := ⟨0, 0⟩
  RemoteRWData : ExecutorAddrRange := ⟨0, 0⟩
  UnfinalizedEHFrames : List EHFrame := []
deriving DecidableEq, Repr

/-- The resolved bootstrap symbol addresses
(`EPCGenericRTDyldMemoryManager::SymbolAddrs`). -/
structure SymbolAddrs where
  Instance : Nat
  Reserve : Nat
  Finalize : Nat
  Deallocate : Nat
  RegisterEHFrame : Nat
  DeregisterEHFrame : Nat
deriving DecidableEq, Repr

/-- The mutex-guarded state of the manager: the `Unmapped` and
`Unfinalized` group sequences, the sticky error message (`""` = no error),
and the reservation base addresses of finalized groups.  The
`FinalizedAllocs` field itself lives in the class header, which is not part
of the sources here; its bookkeeping is modelled from the spec (see
`finalizeMemory`). -/
structure ManagerState where
  Unmapped : List AllocGroup := []
  Unfinalized : List AllocGroup := []
  FinalizedAllocs : List Nat := []
  ErrMsg : String := ""
deriving DecidableEq, Repr

/-! ## Section staging (`allocateCodeSection` / `allocateDataSection`) -/

/-- Apply `f` to the last element of a list (`Unmapped.back()` mutation). -/
def updateLast (f : α → α) : List α → List α
  | [] => []
  | [a] => [f a]
  | a :: b :: rest => a :: updateLast f (b :: rest)

/-- `allocateCodeSection`: appends a new `Alloc` to the current (last)
`Unmapped` group's code sequence and returns the buffer base rounded up to
the requested alignment (`alignAddr(Contents.get(), Align(Alignment))`).
`bufBase` stands for the address of the freshly heap-allocated buffer.
The source accesses `Unmapped.back()` unconditionally; with an empty
`Unmapped` sequence that access has no defined result, modelled as
`none`. -/
def allocateCodeSection (st : ManagerState) (size align bufBase : Nat) :
    Option (ManagerState × Nat) :=
  if st.Unmapped.isEmpty then none
  else
    some ({ st with
              Unmapped := updateLast (fun g =>
                { g with CodeAllocs :=
                    g.CodeAllocs ++ [{ Contents := bufBase, Size := size, Align := align }] })
                st.Unmapped },
          alignTo bufBase align)

/-- `allocateDataSection`: as `allocateCodeSection`, but appends to the
read-only or read-write data sequence according to `isReadOnly`. -/
def allocateDataSection (st : ManagerState) (size align bufBase : Nat)
    (isReadOnly : Bool) : Option (ManagerState × Nat) :=
  if st.Unmapped.isEmpty then none
  else
    some ({ st with
              Unmapped := updateLast (fun g =>
                if isReadOnly then
                  { g with RODataAllocs :=
                      g.RODataAllocs ++ [{ Contents := bufBase, Size := size, Align := align }] }
                else
                  { g with RWDataAllocs :=
                      g.RWDataAllocs ++ [{ Contents := bufBase, Size := size, Align := align }] })
                st.Unmapped },
          alignTo bufBase align)

/-! ## Reservation (`reserveAllocationSpace`) -/

/-- The executor's response to the remote "reserve" call: either a
channel/executor error message or the base address of the granted range. -/
def ReserveOutcome := Except String Nat

/-- `reserveAllocationSpace`.  Returns the new state together with
`some totalSize` when the remote reserve call was issued (requesting
`totalSize` bytes) and `none` when the call bailed out before any remote
interaction.  The alignment checks replicate
`!isPowerOf2_32(A) || A > EPC.getPageSize()` in source order; both the
channel-error and executor-error paths of the call collapse into
`Except.error` (both store `toString(err)` into `ErrMsg`). -/
def reserveAllocationSpace (st : ManagerState) (pageSize : Nat)
    (codeSize codeAlign roDataSize roDataAlign rwDataSize rwDataAlign : Nat)
    (reserveResult : Except String Nat) : ManagerState × Option Nat :=
  if st.ErrMsg ≠ "" then (st, none)
  else if ¬ (isPowerOf2_32 codeAlign && decide (codeAlign ≤ pageSize)) then
    ({ st with ErrMsg := "Invalid code alignment in reserveAllocationSpace" }, none)
  else if ¬ (isPowerOf2_32 roDataAlign && decide (roDataAlign ≤ pageSize)) then
    ({ st with ErrMsg := "Invalid ro-data alignment in reserveAllocationSpace" }, none)
  else if ¬ (isPowerOf2_32 rwDataAlign && decide (rwDataAlign ≤ pageSize)) then
    ({ st with ErrMsg := "Invalid rw-data alignment in reserveAllocationSpace" }, none)
  else
    let totalSize :=
      alignTo codeSize pageSize + alignTo roDataSize pageSize + alignTo rwDataSize pageSize
    match reserveResult with
    | .error e => ({ st with ErrMsg := e }, some totalSize)
    | .ok targetAllocAddr =>
      let remoteCode : ExecutorAddrRange :=
        ⟨targetAllocAddr, targetAllocAddr + alignTo codeSize pageSize⟩
      let remoteROData : ExecutorAddrRange :=
        ⟨remoteCode.End, remoteCode.End + alignTo roDataSize pageSize⟩
      let remoteRWData : ExecutorAddrRange :=
        ⟨remoteROData.End, remoteROData.End + alignTo rwDataSize pageSize⟩
      ({ st with
           Unmapped := st.Unmapped ++
             [{ RemoteCode := remoteCode, RemoteROData := remoteROData,
                RemoteRWData := remoteRWData }] },
       some totalSize)

/-! ## Unwind-frame registration (`registerEHFrames`) -/

/-- Does any of the group's three remote ranges contain the address? -/
def groupContainsAddr (g : AllocGroup) (a : Nat) : Bool :=
  g.RemoteCode.containsAddr a || g.RemoteROData.containsAddr a ||
    g.RemoteRWData.containsAddr a

/-- Walk the `Unfinalized` sequence in reverse (`llvm::reverse`), i.e.
most recently added group first, and append the frame descriptor to the
first group whose ranges contain `la`.  `none` when no group contains
it. -/
def addFrameToContaining (la sz : Nat) : List AllocGroup → Option (List AllocGroup)
  | [] => none
  | g :: rest =>
    match addFrameToContaining la sz rest with
    | some rest' => some (g :: rest')
    | none =>
      if groupContainsAddr g la then
        some ({ g with UnfinalizedEHFrames := g.UnfinalizedEHFrames ++ [⟨la, sz⟩] } :: rest)
      else none

/-- `registerEHFrames`: bail out early on a pending sticky error; otherwise
attach the frame to the most recently added containing group or record the
consistency error. -/
def registerEHFrames (st : ManagerState) (loadAddr size : Nat) : ManagerState :=
  if st.ErrMsg ≠ "" then st
  else
    match addFrameToContaining loadAddr size st.Unfinalized with
    | some uf => { st with Unfinalized := uf }
    | none => { st with ErrMsg := "eh-frame does not lie inside unfinalized alloc" }

/-! ## Address mapping (`notifyObjectLoaded` / `mapAllocsToRemoteAddrs`) -/

/-- `mapAllocsToRemoteAddrs`: assign each `Alloc` a remote address by
rounding the running address up to the `Alloc`'s alignment; advance the
running address by the `Alloc`'s size only when it is non-null.  Returns
the updated sequence and the final running address. -/
def mapAllocsToRemoteAddrs : List Alloc → Nat → List Alloc × Nat
  | [], nextAddr => ([], nextAddr)
  | a :: rest, nextAddr =>
    let na := alignTo nextAddr a.Align
    let next' := if na ≠ 0 then na + a.Size else na
    let r := mapAllocsToRemoteAddrs rest next'
    ({ a with RemoteAddr := na } :: r.1, r.2)

/-- Map one group's three classes from their respective range starts. -/
def mapGroup (g : AllocGroup) : AllocGroup :=
  { g with
      CodeAllocs := (mapAllocsToRemoteAddrs g.CodeAllocs g.RemoteCode.Start).1,
      RODataAllocs := (mapAllocsToRemoteAddrs g.RODataAllocs g.RemoteROData.Start).1,
      RWDataAllocs := (mapAllocsToRemoteAddrs g.RWDataAllocs g.RemoteRWData.Start).1 }

/-- `notifyObjectLoaded`: map every `Unmapped` group and move it to the
`Unfinalized` sequence (in order), leaving `Unmapped` empty. -/
def notifyObjectLoaded (st : ManagerState) : ManagerState :=
  { st with
      Unfinalized := st.Unfinalized ++ st.Unmapped.map mapGroup,
      Unmapped := [] }

/-! ## Finalization (`finalizeMemory`) -/

/-- Wire protection flags of a finalize segment.  The three canonical
combinations below model `tpctypes::toWireProtectionFlags` applied to
`MF_READ|MF_EXEC`, `MF_READ` and `MF_READ|MF_WRITE` (the conversion lives
in a header outside the sources here; per the spec exactly these three
classes exist). -/
structure WireProtectionFlags where
  Read : Bool
  Write : Bool
  Exec : Bool
deriving DecidableEq, Repr

def protReadExec : WireProtectionFlags := ⟨true, false, true⟩

def protRead : WireProtectionFlags := ⟨true, false, false⟩

def protReadWrite : WireProtectionFlags := ⟨true, true, false⟩

/-- First per-segment loop of `finalizeMemory`: fold
`Seg.Size = alignTo(Seg.Size, Align) + Size` over the class's `Alloc`s,
starting from `sz` (the source starts from `0`). -/
def segSize : List Alloc → Nat → Nat
  | [], sz => sz
  | a :: rest, sz => segSize rest (alignTo sz a.Align + a.Size)

/-- Second per-segment loop of `finalizeMemory`: the `memcpy` offsets.
Returns the list of `(SecOffset, Alloc)` placements into the aggregate
buffer and the final running `SecOffset`. -/
def copyOffsets : List Alloc → Nat → List (Nat × Alloc) × Nat
  | [], off => ([], off)
  | a :: rest, off =>
    let o := alignTo off a.Align
    let r := copyOffsets rest (o + a.Size)
    ((o, a) :: r.1, r.2)

/-- One segment of a `tpctypes::FinalizeRequest`: protection flags, target
remote address, the `Seg.Size` field, and the content — modelled as the
length handed to `Seg.Content` (the final `SecOffset`) plus the placement
offsets of each section's bytes in the aggregate buffer. -/
structure SegFinalizeRequest where
  Prot : WireProtectionFlags
  Addr : Nat
  Size : Nat
  ContentLen : Nat
  ContentPlacements : List (Nat × Alloc)
deriving DecidableEq, Repr

/-- One wrapper-function call descriptor inside an allocation action:
resolved wrapper address plus the frame's address and size. -/
structure WrapperCall where
  Fn : Nat
  Addr : Nat
  Size : Nat
deriving DecidableEq, Repr

/-- A paired register/deregister allocation action. -/
structure AllocActionPair where
  Register : WrapperCall
  Deregister : WrapperCall
deriving DecidableEq, Repr

/-- A `tpctypes::FinalizeRequest`: segments plus allocation actions. -/
structure FinalizeRequest where
  Segments : List SegFinalizeRequest
  Actions : List AllocActionPair
deriving DecidableEq, Repr

/-- Build one segment of the finalize request for a class: the two layout
loops of `finalizeMemory` starting from `Seg.Size = 0` and
`SecOffset = 0`. -/
def buildSegFinalizeRequest (prot : WireProtectionFlags) (addr : Nat)
    (allocs : List Alloc) : SegFinalizeRequest :=
  { Prot := prot, Addr := addr, Size := segSize allocs 0,
    ContentLen := (copyOffsets allocs 0).2,
    ContentPlacements := (copyOffsets allocs 0).1 }

/-- The complete finalize request built for one group: the three segments
in fixed order {code: read+execute, ro-data: read-only, rw-data:
read+write}, each targeting its reserved range's start, followed by one
paired register/deregister action per pending unwind frame. -/
def buildFinalizeRequest (sas : SymbolAddrs) (g : AllocGroup) : FinalizeRequest :=
  { Segments :=
      [buildSegFinalizeRequest protReadExec g.RemoteCode.Start g.CodeAllocs,
       buildSegFinalizeRequest protRead g.RemoteROData.Start g.RODataAllocs,
       buildSegFinalizeRequest protReadWrite g.RemoteRWData.Start g.RWDataAllocs],
    Actions := g.UnfinalizedEHFrames.map fun f =>
      { Register := ⟨sas.RegisterEHFrame, f.Addr, f.Size⟩,
        Deregister := ⟨sas.DeregisterEHFrame, f.Addr, f.Size⟩ } }

/-- Outcome of one remote finalize call: transport success with an
executor-reported error (`executorError`), a channel/serialization failure
(`channelError`), or success. -/
inductive CallOutcome where
  | success
  | channelError (msg : String)
  | executorError (msg : String)
deriving DecidableEq, Repr

/-- Result of the per-group finalize loop: the requests issued, the first
error encountered (if any), the groups that were taken from `Unfinalized`
but never processed because the loop returned early, and the reservation
addresses of the groups whose finalize call succeeded. -/
structure FinalizeRunResult where
  Requests : List FinalizeRequest
  FirstErr : Option String
  Dropped : List AllocGroup
  NewlyFinalized : List Nat
deriving DecidableEq, Repr

/-- The `for (auto &ObjAllocs : Allocs)` loop of `finalizeMemory`:
`outcomes i` is the executor's response to the `i`-th finalize call.  On a
channel or executor error the loop stops; the remaining groups are
dropped (the local `Allocs` vector is destroyed on return). -/
def runFinalizeCalls (sas : SymbolAddrs) (outcomes : Nat → CallOutcome) :
    List AllocGroup → Nat → FinalizeRunResult
  | [], _ => ⟨[], none, [], []⟩
  | g :: rest, i =>
    let fr := buildFinalizeRequest sas g
    match outcomes i with
    | .success =>
      let r := runFinalizeCalls sas outcomes rest (i + 1)
      ⟨fr :: r.Requests, r.FirstErr, r.Dropped, g.RemoteCode.Start :: r.NewlyFinalized⟩
    | .channelError e => ⟨[fr], some e, rest, []⟩
    | .executorError e => ⟨[fr], some e, rest, []⟩

/-- Result of `finalizeMemory`: final manager state, the returned `bool`
(`true` = failure), the message written through the `ErrMsg` out-pointer
(`none` when nothing was written), and the finalize requests issued. -/
structure FinalizeMemoryResult where
  FinalState : ManagerState
  ReturnedFailure : Bool
  ReportedErr : Option String
  IssuedRequests : List FinalizeRequest
deriving DecidableEq, Repr

/-- `finalizeMemory(std::string *ErrMsg)`.  `hasErrStr` models whether the
caller passed a non-null out-pointer.  Under the lock: when the out-pointer
is non-null and a sticky error is pending, move it out (draining the slot)
and return failure; otherwise swap out the whole `Unfinalized` sequence and
run the per-group loop.  On a loop error the message becomes the sticky
error and is also copied through the out-pointer when present.  Recording
the successfully finalized groups' reservation addresses into
`FinalizedAllocs` is modelled from the spec: the manager tracks finalized
groups separately so the destructor can release them (the field lives in
the class header, which is not among the sources). -/
def finalizeMemory (sas : SymbolAddrs) (st : ManagerState) (hasErrStr : Bool)
    (outcomes : Nat → CallOutcome) : FinalizeMemoryResult :=
  if hasErrStr ∧ st.ErrMsg ≠ "" then
    { FinalState := { st with ErrMsg := "" }, ReturnedFailure := true,
      ReportedErr := some st.ErrMsg, IssuedRequests := [] }
  else
    let r := runFinalizeCalls sas outcomes st.Unfinalized 0
    match r.FirstErr with
    | none =>
      { FinalState :=
          { st with Unfinalized := [],
                    FinalizedAllocs := st.FinalizedAllocs ++ r.NewlyFinalized },
        ReturnedFailure := false, ReportedErr := none,
        IssuedRequests := r.Requests }
    | some e =>
      { FinalState :=
          { st with Unfinalized := [],
                    FinalizedAllocs := st.FinalizedAllocs ++ r.NewlyFinalized,
                    ErrMsg := e },
        ReturnedFailure := true,
        ReportedErr := if hasErrStr then some e else none,
        IssuedRequests := r.Requests }

/-! ## Teardown (`~EPCGenericRTDyldMemoryManager`) -/

/-- The single remote deallocation call issued by the destructor: the
wrapper-function address it targets and its argument payload. -/
structure RemoteDeallocCall where
  FnAddr : Nat
  InstanceArg : Nat
  FinalizedArg : List Nat
deriving DecidableEq, Repr

/-- The destructor's remote call, as issued by the source: it uses the
deallocate wrapper signature and passes `FinalizedAllocs`, but the
wrapper-function address argument is `SAs.Reserve.getValue()`. -/
def destructorDeallocCall (sas : SymbolAddrs) (st : ManagerState) : RemoteDeallocCall :=
  { FnAddr := sas.Reserve, InstanceArg := sas.Instance,
    FinalizedArg := st.FinalizedAllocs }

/-! ## Reference layout sequences used in theorem statements -/

/-- The address sequence assigned when the running address always advances:
round the running address up to each `Alloc`'s alignment, assign it, then
add the `Alloc`'s size (the behaviour of `mapAllocsToRemoteAddrs` on a
non-null start, as the spec describes it). -/
def assignedAddrsFrom : List Alloc → Nat → List Nat
  | [], _ => []
  | a :: rest, s => alignTo s a.Align :: assignedAddrsFrom rest (alignTo s a.Align + a.Size)

/-- The final running address of `assignedAddrsFrom`. -/
def endAddrFrom : List Alloc → Nat → Nat
  | [], s => s
  | a :: rest, s => endAddrFrom rest (alignTo s a.Align + a.Size)

/-! ## Concrete fixtures used in witnesses and counterexamples -/

/-- A symbol table whose six resolved addresses are pairwise distinct. -/
def sasEx : SymbolAddrs := ⟨1, 2, 3, 4, 5, 6⟩

/-- A staged 10-byte code section with alignment 1. -/
def allocA : Alloc := { Contents := 1000, Size := 10, Align := 1 }

/-- A staged 4-byte read-only section with alignment 4. -/
def allocB : Alloc := { Contents := 2000, Size := 4, Align := 4 }

/-- A reserved group holding `allocA` and `allocB` and one pending
eh-frame. -/
def groupEx : AllocGroup :=
  { CodeAllocs := [allocA], RODataAllocs := [allocB],
    RemoteCode := ⟨4096, 8192⟩, RemoteROData := ⟨8192, 12288⟩,
    RemoteRWData := ⟨12288, 12288⟩,
    UnfinalizedEHFrames := [⟨4096, 24⟩] }

/-- A second reserved group with ranges disjoint from `groupEx`. -/
def groupEx2 : AllocGroup :=
  { RemoteCode := ⟨16384, 20480⟩, RemoteROData := ⟨20480, 20480⟩,
    RemoteRWData := ⟨20480, 24576⟩ }

/-- An executor that answers every finalize call with success. -/
def allSuccess : Nat → CallOutcome := fun _ => .success

/-- An executor that answers every finalize call with a reported error. -/
def allExecError : Nat → CallOutcome := fun _ => .executorError "remote finalize failed"

/-! ## Arithmetic facts about `alignTo` -/

theorem alignTo_zero (a : Nat) : alignTo 0 a = 0 := by
  unfold alignTo
  rcases Nat.eq_zero_or_pos a with h | h
  · subst h; rfl
  · have hd : (0 + a - 1) / a = 0 := Nat.div_eq_of_lt (by omega)
    rw [show (0 : Nat) + a - 1 = a - 1 from by omega] at hd ⊢
    rw [hd]; omega

theorem le_alignTo (v a : Nat) (ha : 0 < a) : v ≤ alignTo v a := by
  have h := Nat.lt_mul_div_succ (v + a - 1) ha
  have h2 : a * ((v + a - 1) / a + 1) = (v + a - 1) / a * a + a := by ring
  unfold alignTo
  omega

theorem alignTo_add_left (v a s : Nat) (ha : 0 < a) (hd : a ∣ s) :
    alignTo (s + v) a = s + alignTo v a := by
  obtain ⟨c, rfl⟩ := hd
  unfold alignTo
  rw [Nat.mul_comm a c]
  have h1 : c * a + v + a - 1 = v + a - 1 + c * a := by omega
  rw [h1, Nat.add_mul_div_right _ _ ha, Nat.add_mul]
  omega

/-! ## List helper -/

theorem updateLast_append (f : α → α) (init : List α) (g : α) :
    updateLast f (init ++ [g]) = init ++ [f g] := by
  induction init with
  | nil => rfl
  | cons a rest ih =>
    cases rest with
    | nil => rfl
    | cons b rest' =>
      simp only [List.cons_append, updateLast, List.append_eq] at ih ⊢
      rw [ih]

/-! ## Claim theorems -/

/-- Claim C1 (code bug).  The destructor issues one remote call with the
deallocate wrapper signature, covering the tracked finalized groups — but
the wrapper-function address it targets is the resolved address of the
**reserve** entry point (`SAs.Reserve.getValue()`, line 52), not the
deallocate entry point the claim (and the call's own signature and
payload) require.  Evaluated at a symbol table with pairwise distinct
resolved addresses. -/
theorem destructor_dealloc_call_targets_reserve_wrapper :
    (destructorDeallocCall sasEx { FinalizedAllocs := [4096, 16384] }).FnAddr
        = sasEx.Reserve ∧
    (destructorDeallocCall sasEx { FinalizedAllocs := [4096, 16384] }).FnAddr
        ≠ sasEx.Deallocate ∧
    (destructorDeallocCall sasEx { FinalizedAllocs := [4096, 16384] }).FinalizedArg
        = [4096, 16384] := by
  decide

/-- Claim C10.  `allocateCodeSection` and `allocateDataSection`
unconditionally access `Unmapped.back()`: with a non-empty `Unmapped`
sequence the access is in bounds, the new `Alloc` is appended to the last
group's matching sequence, and the returned pointer is the new buffer's
base rounded up to the requested alignment; with an empty sequence the
access has no defined result (`none`). -/
theorem allocateSection_requires_unmapped_group
    (st : ManagerState) (size align bufBase : Nat) :
    (st.Unmapped = [] →
      allocateCodeSection st size align bufBase = none ∧
      allocateDataSection st size align bufBase true = none ∧
      allocateDataSection st size align bufBase false = none) ∧
    (∀ init g, st.Unmapped = init ++ [g] →
      allocateCodeSection st size align bufBase =
        some ({ st with Unmapped := init ++
                  [{ g with CodeAllocs := g.CodeAllocs ++ [⟨bufBase, size, align, 0⟩] }] },
              alignTo bufBase align) ∧
      allocateDataSection st size align bufBase true =
        some ({ st with Unmapped := init ++
                  [{ g with RODataAllocs := g.RODataAllocs ++ [⟨bufBase, size, align, 0⟩] }] },
              alignTo bufBase align) ∧
      allocateDataSection st size align bufBase false =
        some ({ st with Unmapped := init ++
                  [{ g with RWDataAllocs := g.RWDataAllocs ++ [⟨bufBase, size, align, 0⟩] }] },
              alignTo bufBase align)) := by
  constructor
  · intro h
    simp [allocateCodeSection, allocateDataSection, h]
  · intro init g h
    have hne : st.Unmapped.isEmpty = false := by simp [h]
    refine ⟨?_, ?_, ?_⟩ <;>
      simp [allocateCodeSection, allocateDataSection, hne, h, updateLast_append]

/-- Witness for C10: a manager with one unmapped group accepts a 10-byte,
align-4 code section at buffer base 1001 and returns the base rounded up
to 1004. -/
theorem allocateSection_requires_unmapped_group_witness :
    allocateCodeSection { Unmapped := [groupEx] } 10 4 1001 =
      some ({ Unmapped :=
                [{ groupEx with CodeAllocs := groupEx.CodeAllocs ++ [⟨1001, 10, 4, 0⟩] }] },
            1004) :=
  ((allocateSection_requires_unmapped_group
      { Unmapped := [groupEx] } 10 4 1001).2 [] groupEx rfl).1

/-- Claim C5.  A successful `reserveAllocationSpace` requests exactly the
sum of the three page-rounded class sizes from the executor and pushes one
new group whose three ranges partition the returned base contiguously and
without overlap in the fixed order code, read-only data, read-write data,
each range's length being that class's page-rounded size. -/
theorem reserveAllocationSpace_partitions_reservation
    (st : ManagerState)
    (pageSize codeSize codeAlign roDataSize roDataAlign rwDataSize rwDataAlign base : Nat)
    (herr : st.ErrMsg = "")
    (hc : (isPowerOf2_32 codeAlign && decide (codeAlign ≤ pageSize)) = true)
    (hro : (isPowerOf2_32 roDataAlign && decide (roDataAlign ≤ pageSize)) = true)
    (hrw : (isPowerOf2_32 rwDataAlign && decide (rwDataAlign ≤ pageSize)) = true) :
    reserveAllocationSpace st pageSize codeSize codeAlign roDataSize roDataAlign
        rwDataSize rwDataAlign (Except.ok base) =
      ({ st with Unmapped := st.Unmapped ++
          [{ RemoteCode := ⟨base, base + alignTo codeSize pageSize⟩,
             RemoteROData := ⟨base + alignTo codeSize pageSize,
               base + alignTo codeSize pageSize + alignTo roDataSize pageSize⟩,
             RemoteRWData := ⟨base + alignTo codeSize pageSize + alignTo roDataSize pageSize,
               base + alignTo codeSize pageSize + alignTo roDataSize pageSize
                 + alignTo rwDataSize pageSize⟩ }] },
       some (alignTo codeSize pageSize + alignTo roDataSize pageSize
               + alignTo rwDataSize pageSize)) := by
  simp [reserveAllocationSpace, herr, hc, hro, hrw]

/-- Witness for C5: the spec's own scenario — code 10 bytes align 1,
ro-data 4 bytes align 4, rw-data empty, page size 4096, base 4096 — yields
an 8192-byte request and ranges [4096,8192), [8192,12288), [12288,12288). -/
theorem reserveAllocationSpace_partitions_reservation_witness :
    reserveAllocationSpace { ErrMsg := "" } 4096 10 1 4 4 0 1 (Except.ok 4096) =
      ({ Unmapped :=
          [{ RemoteCode := ⟨4096, 4096 + alignTo 10 4096⟩,
             RemoteROData := ⟨4096 + alignTo 10 4096,
               4096 + alignTo 10 4096 + alignTo 4 4096⟩,
             RemoteRWData := ⟨4096 + alignTo 10 4096 + alignTo 4 4096,
               4096 + alignTo 10 4096 + alignTo 4 4096 + alignTo 0 4096⟩ }] },
       some (alignTo 10 4096 + alignTo 4 4096 + alignTo 0 4096)) :=
  reserveAllocationSpace_partitions_reservation { ErrMsg := "" } 4096 10 1 4 4 0 1 4096
    rfl (by decide) (by decide) (by decide)

/-- Counterexample to claim C6 as stated: when a sticky error is already
pending, `reserveAllocationSpace` bails out before the alignment checks,
so a call with an invalid code alignment (3) ends with the *earlier*
message still in place — the sticky error does not name the offending
class. -/
theorem reserveAllocationSpace_prior_error_cex :
    (reserveAllocationSpace { ErrMsg := "previous failure" } 4096 0 3 0 1 0 1
        (Except.ok 4096)).1.ErrMsg = "previous failure" ∧
    (reserveAllocationSpace { ErrMsg := "previous failure" } 4096 0 3 0 1 0 1
        (Except.ok 4096)).1.ErrMsg ≠ "Invalid code alignment in reserveAllocationSpace" ∧
    (reserveAllocationSpace { ErrMsg := "previous failure" } 4096 0 3 0 1 0 1
        (Except.ok 4096)).2 = none := by
  decide

/-- Claim C6 (amended).  A `reserveAllocationSpace` call in which some
alignment is not a power of two or exceeds the page size issues no remote
call, pushes no group, and ends with a sticky error set; when no error was
already pending, the error names the first offending class in check order
code, ro-data, rw-data (when an error was already pending, that earlier
error is left in place). -/
theorem reserveAllocationSpace_invalid_align_sets_error
    (st : ManagerState)
    (pageSize codeSize codeAlign roDataSize roDataAlign rwDataSize rwDataAlign : Nat)
    (reserveResult : Except String Nat)
    (hbad : ¬((isPowerOf2_32 codeAlign && decide (codeAlign ≤ pageSize)) = true ∧
              (isPowerOf2_32 roDataAlign && decide (roDataAlign ≤ pageSize)) = true ∧
              (isPowerOf2_32 rwDataAlign && decide (rwDataAlign ≤ pageSize)) = true)) :
    (reserveAllocationSpace st pageSize codeSize codeAlign roDataSize roDataAlign
        rwDataSize rwDataAlign reserveResult).2 = none ∧
    (reserveAllocationSpace st pageSize codeSize codeAlign roDataSize roDataAlign
        rwDataSize rwDataAlign reserveResult).1.Unmapped = st.Unmapped ∧
    (reserveAllocationSpace st pageSize codeSize codeAlign roDataSize roDataAlign
        rwDataSize rwDataAlign reserveResult).1.Unfinalized = st.Unfinalized ∧
    (reserveAllocationSpace st pageSize codeSize codeAlign roDataSize roDataAlign
        rwDataSize rwDataAlign reserveResult).1.ErrMsg ≠ "" ∧
    (st.ErrMsg = "" →
      (reserveAllocationSpace st pageSize codeSize codeAlign roDataSize roDataAlign
          rwDataSize rwDataAlign reserveResult).1.ErrMsg =
        if ¬((isPowerOf2_32 codeAlign && decide (codeAlign ≤ pageSize)) = true) then
          "Invalid code alignment in reserveAllocationSpace"
        else if ¬((isPowerOf2_32 roDataAlign && decide (roDataAlign ≤ pageSize)) = true) then
          "Invalid ro-data alignment in reserveAllocationSpace"
        else "Invalid rw-data alignment in reserveAllocationSpace") := by
  by_cases herr : st.ErrMsg = ""
  · by_cases h1 : (isPowerOf2_32 codeAlign && decide (codeAlign ≤ pageSize)) = true
    · by_cases h2 : (isPowerOf2_32 roDataAlign && decide (roDataAlign ≤ pageSize)) = true
      · by_cases h3 : (isPowerOf2_32 rwDataAlign && decide (rwDataAlign ≤ pageSize)) = true
        · exact absurd ⟨h1, h2, h3⟩ hbad
        · simp [reserveAllocationSpace, herr, h1, h2, h3]
      · simp [reserveAllocationSpace, herr, h1, h2]
    · simp [reserveAllocationSpace, herr, h1]
  · simp [reserveAllocationSpace, herr]

/-- Witness for (amended) C6: with a clean manager, page size 4096 and
code alignment 3, no remote call is issued and the sticky error is set. -/
theorem reserveAllocationSpace_invalid_align_sets_error_witness :
    (reserveAllocationSpace { ErrMsg := "" } 4096 0 3 0 1 0 1 (Except.ok 4096)).2 = none ∧
    (reserveAllocationSpace { ErrMsg := "" } 4096 0 3 0 1 0 1 (Except.ok 4096)).1.ErrMsg ≠ "" :=
  ⟨(reserveAllocationSpace_invalid_align_sets_error { ErrMsg := "" } 4096 0 3 0 1 0 1
      (Except.ok 4096) (by decide)).1,
   (reserveAllocationSpace_invalid_align_sets_error { ErrMsg := "" } 4096 0 3 0 1 0 1
      (Except.ok 4096) (by decide)).2.2.2.1⟩

/-! ## Layout lemmas for the mapping and finalize phases -/

theorem mapAllocsToRemoteAddrs_null (allocs : List Alloc) :
    (mapAllocsToRemoteAddrs allocs 0).1.map Alloc.RemoteAddr
        = List.replicate allocs.length 0 ∧
    (mapAllocsToRemoteAddrs allocs 0).2 = 0 := by
  induction allocs with
  | nil => simp [mapAllocsToRemoteAddrs]
  | cons a rest ih =>
    simp [mapAllocsToRemoteAddrs, alignTo_zero, ih.1, ih.2, List.replicate_succ]

theorem mapAllocsToRemoteAddrs_nonnull (allocs : List Alloc) :
    ∀ s, s ≠ 0 → (∀ a ∈ allocs, 0 < a.Align) →
      (mapAllocsToRemoteAddrs allocs s).1.map Alloc.RemoteAddr
          = assignedAddrsFrom allocs s ∧
      (mapAllocsToRemoteAddrs allocs s).2 = endAddrFrom allocs s := by
  induction allocs with
  | nil => intro s _ _; simp [mapAllocsToRemoteAddrs, assignedAddrsFrom, endAddrFrom]
  | cons a rest ih =>
    intro s hs hpos
    have hapos : 0 < a.Align := hpos a (by simp)
    have hna : alignTo s a.Align ≠ 0 := by
      have := le_alignTo s a.Align hapos
      omega
    have hrest := ih (alignTo s a.Align + a.Size) (by omega)
      (fun x hx => hpos x (by simp [hx]))
    simp [mapAllocsToRemoteAddrs, hna, assignedAddrsFrom, endAddrFrom,
      hrest.1, hrest.2]

/-- Claim C9.  During address mapping, a null (zero) range start leaves
every `Alloc` of the class unmapped (remote address null) and never
advances the running address; a non-null range start assigns each `Alloc`
the running address rounded up to its alignment and advances by its size
each time. -/
theorem mapAllocs_null_left_unmapped_nonnull_advances
    (allocs : List Alloc) (s : Nat) (hpos : ∀ a ∈ allocs, 0 < a.Align) :
    (s = 0 →
      (mapAllocsToRemoteAddrs allocs s).1.map Alloc.RemoteAddr
          = List.replicate allocs.length 0 ∧
      (mapAllocsToRemoteAddrs allocs s).2 = 0) ∧
    (s ≠ 0 →
      (mapAllocsToRemoteAddrs allocs s).1.map Alloc.RemoteAddr
          = assignedAddrsFrom allocs s ∧
      (mapAllocsToRemoteAddrs allocs s).2 = endAddrFrom allocs s) := by
  constructor
  · rintro rfl; exact mapAllocsToRemoteAddrs_null allocs
  · intro hs; exact mapAllocsToRemoteAddrs_nonnull allocs s hs hpos

/-- Witness for C9: mapping `allocA` (size 10, align 1) and `allocB`
(size 4, align 4) from start 4096 assigns 4096 and 4108 and ends at
4112; mapping the same sequence from the null start assigns null to both
and ends at 0. -/
theorem mapAllocs_null_left_unmapped_nonnull_advances_witness :
    ((mapAllocsToRemoteAddrs [allocA, allocB] 4096).1.map Alloc.RemoteAddr
        = assignedAddrsFrom [allocA, allocB] 4096 ∧
      (mapAllocsToRemoteAddrs [allocA, allocB] 4096).2
        = endAddrFrom [allocA, allocB] 4096) ∧
    ((mapAllocsToRemoteAddrs [allocA, allocB] 0).1.map Alloc.RemoteAddr
        = List.replicate 2 0 ∧
      (mapAllocsToRemoteAddrs [allocA, allocB] 0).2 = 0) :=
  ⟨(mapAllocs_null_left_unmapped_nonnull_advances [allocA, allocB] 4096
      (by decide)).2 (by decide),
   (mapAllocs_null_left_unmapped_nonnull_advances [allocA, allocB] 0
      (by decide)).1 rfl⟩

theorem segSize_eq_copyOffsets_final (allocs : List Alloc) :
    ∀ off, segSize allocs off = (copyOffsets allocs off).2 := by
  induction allocs with
  | nil => intro off; rfl
  | cons a rest ih => intro off; simp [segSize, copyOffsets, ih]

theorem mapAllocs_shift (s : Nat) (hs : s ≠ 0) (allocs : List Alloc) :
    ∀ off, (∀ a ∈ allocs, 0 < a.Align ∧ a.Align ∣ s) →
      (mapAllocsToRemoteAddrs allocs (s + off)).1.map Alloc.RemoteAddr
          = (copyOffsets allocs off).1.map (fun p => s + p.1) ∧
      (mapAllocsToRemoteAddrs allocs (s + off)).2 = s + (copyOffsets allocs off).2 := by
  induction allocs with
  | nil => intro off _; simp [mapAllocsToRemoteAddrs, copyOffsets]
  | cons a rest ih =>
    intro off h
    obtain ⟨hpos, hdvd⟩ := h a (by simp)
    have hal : alignTo (s + off) a.Align = s + alignTo off a.Align :=
      alignTo_add_left off a.Align s hpos hdvd
    have hne : s + alignTo off a.Align ≠ 0 := by omega
    have ih' := ih (alignTo off a.Align + a.Size) (fun x hx => h x (by simp [hx]))
    have ih1 := ih'.1
    have ih2 := ih'.2
    rw [← Nat.add_assoc] at ih1 ih2
    constructor
    · simp [mapAllocsToRemoteAddrs, copyOffsets, hal, hne, ih1]
    · simp [mapAllocsToRemoteAddrs, copyOffsets, hal, hne, ih2]

/-- Claim C4.  For any protection class whose range start is non-null and
divisible by each section's alignment (the manager reserves page-aligned
range starts and validates alignments against the page size), the remote
address assigned to each section during `notifyObjectLoaded` is exactly
the class range start plus the offset at which `finalizeMemory` places
that section's bytes in the aggregate buffer, and the aggregate segment
size (`Seg.Size`) equals the final running copy offset handed to
`Seg.Content`. -/
theorem planned_offsets_eq_finalize_offsets
    (prot : WireProtectionFlags) (s : Nat) (allocs : List Alloc) (hs : s ≠ 0)
    (h : ∀ a ∈ allocs, 0 < a.Align ∧ a.Align ∣ s) :
    (mapAllocsToRemoteAddrs allocs s).1.map Alloc.RemoteAddr
        = (buildSegFinalizeRequest prot s allocs).ContentPlacements.map
            (fun p => s + p.1) ∧
    (buildSegFinalizeRequest prot s allocs).Size
        = (buildSegFinalizeRequest prot s allocs).ContentLen := by
  have hshift := mapAllocs_shift s hs allocs 0 h
  constructor
  · simpa [buildSegFinalizeRequest] using hshift.1
  · simp [buildSegFinalizeRequest, segSize_eq_copyOffsets_final]

/-- Witness for C4: for the code class of the spec's scenario (sections of
sizes 10 and 4, alignments 1 and 4, range start 4096) the planned
addresses are start + the finalize copy offsets, and the segment size
equals the final copy offset. -/
theorem planned_offsets_eq_finalize_offsets_witness :
    (mapAllocsToRemoteAddrs [allocA, allocB] 4096).1.map Alloc.RemoteAddr
        = (buildSegFinalizeRequest protReadExec 4096 [allocA, allocB]).ContentPlacements.map
            (fun p => 4096 + p.1) ∧
    (buildSegFinalizeRequest protReadExec 4096 [allocA, allocB]).Size
        = (buildSegFinalizeRequest protReadExec 4096 [allocA, allocB]).ContentLen :=
  planned_offsets_eq_finalize_offsets protReadExec 4096 [allocA, allocB]
    (by decide) (by decide)

/-! ## Routing lemmas for unwind-frame registration -/

theorem addFrameToContaining_none (la sz : Nat) (l : List AllocGroup)
    (h : ∀ g ∈ l, groupContainsAddr g la = false) :
    addFrameToContaining la sz l = none := by
  induction l with
  | nil => rfl
  | cons g rest ih =>
    have hg := h g (by simp)
    have hrest := ih (fun x hx => h x (by simp [hx]))
    simp [addFrameToContaining, hrest, hg]

theorem addFrameToContaining_decomp (la sz : Nat) (pre : List AllocGroup) :
    ∀ g post, groupContainsAddr g la = true →
      (∀ g' ∈ post, groupContainsAddr g' la = false) →
      addFrameToContaining la sz (pre ++ g :: post) =
        some (pre ++
          { g with UnfinalizedEHFrames := g.UnfinalizedEHFrames ++ [⟨la, sz⟩] } :: post) := by
  induction pre with
  | nil =>
    intro g post hg hpost
    simp [addFrameToContaining, addFrameToContaining_none la sz post hpost, hg]
  | cons p pre' ih =>
    intro g post hg hpost
    simp [addFrameToContaining, ih g post hg hpost]

/-- Claim C7.  With no sticky error pending: a registered frame whose load
address lies in some `Unfinalized` group's code/ro/rw range is appended to
the pending list of the most recently added such group (every group added
later does not contain the address) and no error is set; when no group's
ranges contain the address, the sticky error is set to the consistency
message and no group is modified. -/
theorem registerEHFrames_routes_to_most_recent_or_errors
    (st : ManagerState) (la sz : Nat) (herr : st.ErrMsg = "") :
    (∀ pre g post, st.Unfinalized = pre ++ g :: post →
      groupContainsAddr g la = true →
      (∀ g' ∈ post, groupContainsAddr g' la = false) →
      registerEHFrames st la sz =
        { st with Unfinalized := pre ++
            { g with UnfinalizedEHFrames := g.UnfinalizedEHFrames ++ [⟨la, sz⟩] } :: post }) ∧
    ((∀ g ∈ st.Unfinalized, groupContainsAddr g la = false) →
      registerEHFrames st la sz =
        { st with ErrMsg := "eh-frame does not lie inside unfinalized alloc" }) := by
  constructor
  · intro pre g post hdecomp hg hpost
    simp [registerEHFrames, herr, hdecomp,
      addFrameToContaining_decomp la sz pre g post hg hpost]
  · intro hnone
    simp [registerEHFrames, herr, addFrameToContaining_none la sz _ hnone]

/-- Witness for C7: with `groupEx2` older than `groupEx` pending, a frame
at 4096 (inside `groupEx`'s code range) is appended to `groupEx`'s pending
list. -/
theorem registerEHFrames_routes_to_most_recent_or_errors_witness :
    registerEHFrames { Unfinalized := [groupEx2, groupEx] } 4096 24 =
      { Unfinalized := [groupEx2,
          { groupEx with UnfinalizedEHFrames :=
              groupEx.UnfinalizedEHFrames ++ [⟨4096, 24⟩] }] } :=
  (registerEHFrames_routes_to_most_recent_or_errors
      { Unfinalized := [groupEx2, groupEx] } 4096 24 rfl).1
    [groupEx2] groupEx [] rfl (by decide) (by simp)

/-! ## Lemmas about the finalize loop -/

theorem runFinalizeCalls_prefix (sas : SymbolAddrs) (outcomes : Nat → CallOutcome) :
    ∀ (groups : List AllocGroup) (i : Nat),
      ∃ k, k ≤ groups.length ∧
        (runFinalizeCalls sas outcomes groups i).Requests
            = (groups.take k).map (buildFinalizeRequest sas) ∧
        (runFinalizeCalls sas outcomes groups i).Dropped = groups.drop k ∧
        ((runFinalizeCalls sas outcomes groups i).FirstErr = none →
          k = groups.length) := by
  intro groups
  induction groups with
  | nil => intro i; exact ⟨0, by simp [runFinalizeCalls]⟩
  | cons g rest ih =>
    intro i
    obtain ⟨k, hk, hreq, hdrop, herrk⟩ := ih (i + 1)
    cases hout : outcomes i with
    | success =>
      refine ⟨k + 1, by simpa using hk, ?_, ?_, ?_⟩
      · simp [runFinalizeCalls, hout, hreq]
      · simp [runFinalizeCalls, hout, hdrop]
      · intro hnone
        simp only [runFinalizeCalls, hout] at hnone
        simp [herrk hnone]
    | channelError e =>
      exact ⟨1, by simp, by simp [runFinalizeCalls, hout],
        by simp [runFinalizeCalls, hout], by simp [runFinalizeCalls, hout]⟩
    | executorError e =>
      exact ⟨1, by simp, by simp [runFinalizeCalls, hout],
        by simp [runFinalizeCalls, hout], by simp [runFinalizeCalls, hout]⟩

theorem runFinalizeCalls_allSuccess (sas : SymbolAddrs) (outcomes : Nat → CallOutcome)
    (hsucc : ∀ j, outcomes j = CallOutcome.success) :
    ∀ (groups : List AllocGroup) (i : Nat),
      runFinalizeCalls sas outcomes groups i =
        ⟨groups.map (buildFinalizeRequest sas), none, [],
         groups.map fun g => g.RemoteCode.Start⟩ := by
  intro groups
  induction groups with
  | nil => intro i; rfl
  | cons g rest ih => intro i; simp [runFinalizeCalls, hsucc i, ih (i + 1)]

theorem finalizeMemory_requests_eq_run (sas : SymbolAddrs) (st : ManagerState)
    (hasErrStr : Bool) (outcomes : Nat → CallOutcome) (h : st.ErrMsg = "") :
    (finalizeMemory sas st hasErrStr outcomes).IssuedRequests
        = (runFinalizeCalls sas outcomes st.Unfinalized 0).Requests ∧
    (finalizeMemory sas st hasErrStr outcomes).FinalState.Unfinalized = [] ∧
    ((finalizeMemory sas st hasErrStr outcomes).ReturnedFailure = false →
      (runFinalizeCalls sas outcomes st.Unfinalized 0).FirstErr = none) := by
  have hcond : ¬(hasErrStr ∧ st.ErrMsg ≠ "") := by simp [h]
  cases hfe : (runFinalizeCalls sas outcomes st.Unfinalized 0).FirstErr with
  | none => simp [finalizeMemory, hcond, hfe]
  | some e => simp [finalizeMemory, hcond, hfe]

theorem finalizeMemory_no_groups_no_requests (sas : SymbolAddrs) (st : ManagerState)
    (b : Bool) (o : Nat → CallOutcome) (h : st.Unfinalized = []) :
    (finalizeMemory sas st b o).IssuedRequests = [] := by
  by_cases hc : (b : Prop) ∧ st.ErrMsg ≠ ""
  · simp [finalizeMemory, hc]
  · simp [finalizeMemory, hc, h, runFinalizeCalls]

/-- Counterexample to claim C2 as stated: the drain branch is guarded by
`ErrMsg && !this->ErrMsg.empty()`, so a call made with a *null*
error-message out-pointer while the sticky error "boom" is set does not
short-circuit — it reports nothing, takes the pending group, issues its
finalize call, returns success, and leaves the sticky error in place. -/
theorem finalizeMemory_null_errptr_skips_drain_cex :
    (finalizeMemory sasEx { Unfinalized := [groupEx2], ErrMsg := "boom" }
        false allSuccess).ReportedErr = none ∧
    (finalizeMemory sasEx { Unfinalized := [groupEx2], ErrMsg := "boom" }
        false allSuccess).IssuedRequests.length = 1 ∧
    (finalizeMemory sasEx { Unfinalized := [groupEx2], ErrMsg := "boom" }
        false allSuccess).ReturnedFailure = false ∧
    (finalizeMemory sasEx { Unfinalized := [groupEx2], ErrMsg := "boom" }
        false allSuccess).FinalState.ErrMsg = "boom" := by
  decide

/-- Claim C2 (amended).  For every `finalizeMemory` call made with a
non-null error-message out-pointer while the sticky error is set: the call
reports that error immediately, returns failure, issues no finalize call,
leaves the `Unfinalized` set untouched, and clears the sticky slot — and a
later call (here: one whose remote calls all succeed) no longer reports
it. -/
theorem finalizeMemory_drains_sticky_error_once
    (sas : SymbolAddrs) (st : ManagerState) (outcomes : Nat → CallOutcome)
    (h : st.ErrMsg ≠ "") :
    (finalizeMemory sas st true outcomes).ReturnedFailure = true ∧
    (finalizeMemory sas st true outcomes).ReportedErr = some st.ErrMsg ∧
    (finalizeMemory sas st true outcomes).IssuedRequests = [] ∧
    (finalizeMemory sas st true outcomes).FinalState.Unfinalized = st.Unfinalized ∧
    (finalizeMemory sas st true outcomes).FinalState.ErrMsg = "" ∧
    (∀ outcomes2, (∀ j, outcomes2 j = CallOutcome.success) →
      (finalizeMemory sas (finalizeMemory sas st true outcomes).FinalState
          true outcomes2).ReturnedFailure = false ∧
      (finalizeMemory sas (finalizeMemory sas st true outcomes).FinalState
          true outcomes2).ReportedErr = none) := by
  have hdrain : finalizeMemory sas st true outcomes =
      { FinalState := { st with ErrMsg := "" }, ReturnedFailure := true,
        ReportedErr := some st.ErrMsg, IssuedRequests := [] } := by
    simp [finalizeMemory, h]
  refine ⟨by rw [hdrain], by rw [hdrain], by rw [hdrain], by rw [hdrain],
    by rw [hdrain], ?_⟩
  intro o2 hsucc
  rw [hdrain]
  constructor
  · simp [finalizeMemory, runFinalizeCalls_allSuccess sas o2 hsucc]
  · simp [finalizeMemory, runFinalizeCalls_allSuccess sas o2 hsucc]

/-- Witness for (amended) C2: with sticky error "boom" and one pending
group, a call with a non-null out-pointer reports "boom", issues nothing,
and clears the slot. -/
theorem finalizeMemory_drains_sticky_error_once_witness :
    (finalizeMemory sasEx { Unfinalized := [groupEx], ErrMsg := "boom" }
        true allSuccess).ReportedErr = some "boom" ∧
    (finalizeMemory sasEx { Unfinalized := [groupEx], ErrMsg := "boom" }
        true allSuccess).IssuedRequests = [] ∧
    (finalizeMemory sasEx { Unfinalized := [groupEx], ErrMsg := "boom" }
        true allSuccess).FinalState.ErrMsg = "" :=
  ⟨(finalizeMemory_drains_sticky_error_once sasEx
      { Unfinalized := [groupEx], ErrMsg := "boom" } allSuccess (by decide)).2.1,
   (finalizeMemory_drains_sticky_error_once sasEx
      { Unfinalized := [groupEx], ErrMsg := "boom" } allSuccess (by decide)).2.2.1,
   (finalizeMemory_drains_sticky_error_once sasEx
      { Unfinalized := [groupEx], ErrMsg := "boom" } allSuccess (by decide)).2.2.2.2.1⟩

/-- Counterexample to claim C3 as stated: with two pending groups and the
first finalize call failing, the second (taken but unprocessed) group is
*discarded* — the final `Unfinalized` set is empty and a later call issues
no request at all — rather than remaining available to a later call. -/
theorem finalizeMemory_discards_unprocessed_groups_cex :
    (finalizeMemory sasEx { Unfinalized := [groupEx, groupEx2] }
        true allExecError).IssuedRequests.length = 1 ∧
    (finalizeMemory sasEx { Unfinalized := [groupEx, groupEx2] }
        true allExecError).ReturnedFailure = true ∧
    (finalizeMemory sasEx { Unfinalized := [groupEx, groupEx2] }
        true allExecError).FinalState.Unfinalized = [] ∧
    (finalizeMemory sasEx
        (finalizeMemory sasEx { Unfinalized := [groupEx, groupEx2] }
          true allExecError).FinalState
        true allSuccess).IssuedRequests = [] := by
  decide

/-- Claim C3 (amended).  When a finalize call fails, `finalizeMemory`
reports failure without retrying: the requests it issued are exactly one
per group of an initial prefix of the taken `Unfinalized` sequence (all of
it on success), processed groups are never submitted again, and the taken
but unprocessed groups are *discarded* — the final state holds no
unfinalized group, so a later call (before new groups accumulate) issues
no request. -/
theorem finalizeMemory_prefix_once_no_retry
    (sas : SymbolAddrs) (st : ManagerState) (hasErrStr : Bool)
    (outcomes : Nat → CallOutcome) (h : st.ErrMsg = "") :
    ∃ k, k ≤ st.Unfinalized.length ∧
      (finalizeMemory sas st hasErrStr outcomes).IssuedRequests
          = (st.Unfinalized.take k).map (buildFinalizeRequest sas) ∧
      ((finalizeMemory sas st hasErrStr outcomes).ReturnedFailure = false →
        k = st.Unfinalized.length) ∧
      (finalizeMemory sas st hasErrStr outcomes).FinalState.Unfinalized = [] ∧
      (∀ b2 outcomes2,
        (finalizeMemory sas (finalizeMemory sas st hasErrStr outcomes).FinalState
            b2 outcomes2).IssuedRequests = []) := by
  obtain ⟨k, hk, hreq, hdrop, herrk⟩ := runFinalizeCalls_prefix sas outcomes st.Unfinalized 0
  obtain ⟨key1, key2, key3⟩ := finalizeMemory_requests_eq_run sas st hasErrStr outcomes h
  exact ⟨k, hk, key1.trans hreq, fun hfalse => herrk (key3 hfalse), key2,
    fun b2 o2 => finalizeMemory_no_groups_no_requests sas _ b2 o2 key2⟩

/-- Witness for (amended) C3: two pending groups, all calls succeeding —
both are processed exactly once and the later call issues nothing. -/
theorem finalizeMemory_prefix_once_no_retry_witness :
    ∃ k, k ≤ ({ Unfinalized := [groupEx, groupEx2] } : ManagerState).Unfinalized.length ∧
      (finalizeMemory sasEx { Unfinalized := [groupEx, groupEx2] }
          true allSuccess).IssuedRequests
          = (({ Unfinalized := [groupEx, groupEx2] } : ManagerState).Unfinalized.take k).map
              (buildFinalizeRequest sasEx) ∧
      ((finalizeMemory sasEx { Unfinalized := [groupEx, groupEx2] }
          true allSuccess).ReturnedFailure = false →
        k = ({ Unfinalized := [groupEx, groupEx2] } : ManagerState).Unfinalized.length) ∧
      (finalizeMemory sasEx { Unfinalized := [groupEx, groupEx2] }
          true allSuccess).FinalState.Unfinalized = [] ∧
      (∀ b2 outcomes2,
        (finalizeMemory sasEx
            (finalizeMemory sasEx { Unfinalized := [groupEx, groupEx2] }
              true allSuccess).FinalState b2 outcomes2).IssuedRequests = []) :=
  finalizeMemory_prefix_once_no_retry sasEx { Unfinalized := [groupEx, groupEx2] }
    true allSuccess rfl

/-- Claim C8.  Every request issued by `finalizeMemory` is the request
built for one group of an initial prefix of the taken sequence (exactly
one request per processed group, in order), and the request built for a
group carries exactly three segments in the fixed order code
(read+execute), read-only data (read-only), read-write data (read+write),
each targeting its reserved range's start, plus one paired
register/deregister action per pending unwind frame, carrying the frame's
address and size and the resolved register/deregister entry points. -/
theorem finalizeMemory_request_shape
    (sas : SymbolAddrs) (st : ManagerState) (hasErrStr : Bool)
    (outcomes : Nat → CallOutcome) (h : st.ErrMsg = "") :
    (∃ k, k ≤ st.Unfinalized.length ∧
      (finalizeMemory sas st hasErrStr outcomes).IssuedRequests
          = (st.Unfinalized.take k).map (buildFinalizeRequest sas)) ∧
    ∀ g : AllocGroup,
      (buildFinalizeRequest sas g).Segments =
        [{ Prot := protReadExec, Addr := g.RemoteCode.Start,
           Size := segSize g.CodeAllocs 0,
           ContentLen := (copyOffsets g.CodeAllocs 0).2,
           ContentPlacements := (copyOffsets g.CodeAllocs 0).1 },
         { Prot := protRead, Addr := g.RemoteROData.Start,
           Size := segSize g.RODataAllocs 0,
           ContentLen := (copyOffsets g.RODataAllocs 0).2,
           ContentPlacements := (copyOffsets g.RODataAllocs 0).1 },
         { Prot := protReadWrite, Addr := g.RemoteRWData.Start,
           Size := segSize g.RWDataAllocs 0,
           ContentLen := (copyOffsets g.RWDataAllocs 0).2,
           ContentPlacements := (copyOffsets g.RWDataAllocs 0).1 }] ∧
      (buildFinalizeRequest sas g).Actions =
        g.UnfinalizedEHFrames.map (fun f =>
          { Register := ⟨sas.RegisterEHFrame, f.Addr, f.Size⟩,
            Deregister := ⟨sas.DeregisterEHFrame, f.Addr, f.Size⟩ }) := by
  constructor
  · obtain ⟨k, hk, hreq, _, _⟩ := runFinalizeCalls_prefix sas outcomes st.Unfinalized 0
    obtain ⟨key1, _, _⟩ := finalizeMemory_requests_eq_run sas st hasErrStr outcomes h
    exact ⟨k, hk, key1.trans hreq⟩
  · intro g
    exact ⟨rfl, rfl⟩

/-- Witness for C8: the request built for `groupEx` (one code section, one
ro-data section, one pending frame) has the three segments in fixed order
and one paired register/deregister action. -/
theorem finalizeMemory_request_shape_witness :
    (buildFinalizeRequest sasEx groupEx).Segments =
      [{ Prot := protReadExec, Addr := groupEx.RemoteCode.Start,
         Size := segSize groupEx.CodeAllocs 0,
         ContentLen := (copyOffsets groupEx.CodeAllocs 0).2,
         ContentPlacements := (copyOffsets groupEx.CodeAllocs 0).1 },
       { Prot := protRead, Addr := groupEx.RemoteROData.Start,
         Size := segSize groupEx.RODataAllocs 0,
         ContentLen := (copyOffsets groupEx.RODataAllocs 0).2,
         ContentPlacements := (copyOffsets groupEx.RODataAllocs 0).1 },
       { Prot := protReadWrite, Addr := groupEx.RemoteRWData.Start,
         Size := segSize groupEx.RWDataAllocs 0,
         ContentLen := (copyOffsets groupEx.RWDataAllocs 0).2,
         ContentPlacements := (copyOffsets groupEx.RWDataAllocs 0).1 }] ∧
    (buildFinalizeRequest sasEx groupEx).Actions =
      groupEx.UnfinalizedEHFrames.map (fun f =>
        { Register := ⟨sasEx.RegisterEHFrame, f.Addr, f.Size⟩,
          Deregister := ⟨sasEx.DeregisterEHFrame, f.Addr, f.Size⟩ }) :=
  (finalizeMemory_request_shape sasEx { Unfinalized := [groupEx] }
      true allSuccess rfl).2 groupEx

end EPCMM
